import Mathlib

/-!
Shallow embedding of `src/app.py` (a single-file Flask + SQLite blog).

The SQLite database is modelled as an explicit state (`DBState`) holding the
rows of the `posts` and `images` tables.  Each method of the Python
`Database` class becomes a pure function from state (plus arguments) to a
new state and/or a result; the route handlers `save_post` and `rss_feed`
become pure functions as well, with the request form fields, the current
time, and the request URL root passed as explicit arguments.

`markupsafe.escape` and `bleach.clean` are external library calls; they are
modelled executably below (`escapeStr`, `bleachClean`).  `escapeStr` follows
the documented behaviour of `markupsafe.escape` exactly (the five HTML
metacharacters are replaced by entities); `bleachClean` is a simplified
executable model of the `bleach.clean` call with the allow-list configured
in `add_post` / `update_post`.
-/

/-- The double-quote character, written via its code point. -/
def dqChar : Char := Char.ofNat 34

/-- The single-quote character, written via its code point. -/
def sqChar : Char := Char.ofNat 39

/-- Model of `markupsafe.escape` on one character: `&`, `<`, `>`, `"` and
the single quote become HTML entities, every other character is kept. -/
def escC (c : Char) : List Char :=
  if c = '&' then "&amp;".data
  else if c = '<' then "&lt;".data
  else if c = '>' then "&gt;".data
  else if c = dqChar then "&#34;".data
  else if c = sqChar then "&#39;".data
  else [c]

/-- Model of `markupsafe.escape` on a list of characters. -/
def escList : List Char → List Char
  | [] => []
  | c :: l => escC c ++ escList l

/-- Model of `markupsafe.escape` as used in `Database.add_post` and
`Database.update_post` (`escape(title)`). -/
def escapeStr (s : String) : String := ⟨escList s.data⟩

/-- Model of Python `str.strip()`: remove leading and trailing whitespace. -/
def stripList (l : List Char) : List Char :=
  ((l.dropWhile Char.isWhitespace).reverse.dropWhile Char.isWhitespace).reverse

/-- Model of Python `str.strip()` on strings, as used in `save_post`. -/
def pyStrip (s : String) : String := ⟨stripList s.data⟩

/-- The tag allow-list passed to `bleach.clean` in `add_post` / `update_post`. -/
def allowedTags : List String :=
  ["b", "i", "u", "h1", "h2", "h3", "p", "br", "ul", "ol", "li", "blockquote", "img"]

/-- The attribute allow-list passed to `bleach.clean`:
`style` on every tag, and additionally `src` and `alt` on `img`. -/
def attrAllowed (tag name : String) : Bool :=
  name = "style" || (tag = "img" && (name = "src" || name = "alt"))

/-- The protocol allow-list passed to `bleach.clean`: a URL value is kept if
it has no scheme or its scheme is `http` or `https`. -/
def protocolOk (v : List Char) : Bool :=
  if v.any (fun c => c = ':') then
    "http:".data.isPrefixOf v || "https:".data.isPrefixOf v
  else true

/-- HTML-escape one character of text content (`&`, `<`, `>`), as the
sanitizer's serializer does for character data. -/
def escTextC (c : Char) : List Char :=
  if c = '&' then "&amp;".data
  else if c = '<' then "&lt;".data
  else if c = '>' then "&gt;".data
  else [c]

/-- Split a raw attribute source into space-separated words. -/
def splitWords : List Char → List (List Char)
  | [] => []
  | c :: rest =>
    if c = ' ' then splitWords rest
    else
      let w := (c :: rest).takeWhile (fun x => x ≠ ' ')
      w :: splitWords (rest.drop (w.length - 1))
termination_by l => l.length
decreasing_by
  · simp
  · simp [List.length_drop]; omega

/-- The name of an attribute word (the part before `=`). -/
def attrName (w : List Char) : String :=
  ⟨(w.takeWhile (fun c => c ≠ '=')).map Char.toLower⟩

/-- The value of an attribute word (the part after `=`, quotes removed). -/
def attrVal (w : List Char) : List Char :=
  ((w.dropWhile (fun c => c ≠ '=')).drop 1).filter (fun c => c ≠ dqChar && c ≠ sqChar)

/-- Keep an attribute word when its name is allow-listed for the tag and,
for `src`, its value's protocol is allow-listed. -/
def keepAttr (tag : String) (w : List Char) : Bool :=
  attrAllowed tag (attrName w) &&
    (attrName w ≠ "src" || protocolOk (attrVal w))

/-- Serialize a kept attribute as ` name="value"`. -/
def renderAttr (w : List Char) : List Char :=
  ' ' :: (attrName w).data ++ '=' :: dqChar :: attrVal w ++ [dqChar]

/-- Render the inside of one tag (the characters between `<` and `>`):
an allow-listed tag is re-serialized with only its kept attributes, any
other tag is HTML-escaped into the text, as `bleach.clean` does with its
default `strip=False`. -/
def renderTag (inner : List Char) : List Char :=
  let isEnd := inner.head? = some '/'
  let body := if isEnd then inner.drop 1 else inner
  let name : String := ⟨(body.takeWhile Char.isAlphanum).map Char.toLower⟩
  if allowedTags.contains name then
    if isEnd then '<' :: '/' :: name.data ++ ['>']
    else
      let kept := (splitWords (body.drop name.length)).filter (keepAttr name)
      '<' :: name.data ++ (kept.map renderAttr).flatten ++ ['>']
  else
    escTextC '<' ++ inner.flatMap escTextC ++ escTextC '>'

/-- Fuel-indexed worker for the sanitizer model: escape text characters and
dispatch full `<...>` groups to `renderTag`. -/
def cleanAux : Nat → List Char → List Char
  | 0, _ => []
  | _ + 1, [] => []
  | fuel + 1, c :: rest =>
    if c = '<' then
      match rest.span (fun c => c ≠ '>') with
      | (_, []) => escTextC c ++ cleanAux fuel rest
      | (inner, _ :: rest') => renderTag inner ++ cleanAux fuel rest'
    else escTextC c ++ cleanAux fuel rest

/-- Simplified executable model of the external call
`bleach.clean(content, tags=..., attributes=..., protocols=...)` made in
`Database.add_post` and `Database.update_post`.  The bleach library itself
is not part of this repository; this model keeps allow-listed tags with
allow-listed attributes and protocols and HTML-escapes everything else. -/
def bleachClean (s : String) : String := ⟨cleanAux (s.data.length + 1) s.data⟩

/-- One row of the `posts` table (`id`, `title`, `content`, `created_at`). -/
structure Post where
  id : Nat
  title : String
  content : String
  created_at : String
deriving DecidableEq, Repr

/-- One row of the `images` table (`id`, `post_id`, `filename`).  The
schema declares `FOREIGN KEY(post_id) REFERENCES posts(id)`, but the code
never issues `PRAGMA foreign_keys=ON`, so SQLite does not enforce it. -/
structure Image where
  id : Nat
  post_id : Nat
  filename : String
deriving DecidableEq, Repr

/-- The database state: the rows of the two tables created by `init_db`. -/
structure DBState where
  posts : List Post
  images : List Image
deriving DecidableEq, Repr

/-- The state produced by `init_db` on a fresh file: both tables empty. -/
def emptyState : DBState := ⟨[], []⟩

/-- The largest `id` present in a list of posts (0 when empty).  SQLite
assigns a fresh `INTEGER PRIMARY KEY` as one more than the largest rowid. -/
def maxId (l : List Post) : Nat := l.foldr (fun p m => max p.id m) 0

/-- The largest image `id` present (0 when empty). -/
def maxImageId (l : List Image) : Nat := l.foldr (fun i m => max i.id m) 0

/-- The SQL ordering `ORDER BY id DESC` as a relation on posts. -/
def postGe (a b : Post) : Prop := b.id ≤ a.id

instance : DecidableRel postGe := fun a b => inferInstanceAs (Decidable (b.id ≤ a.id))

instance : IsTotal Post postGe := ⟨fun a b => Nat.le_total b.id a.id⟩

instance : IsTrans Post postGe := ⟨fun _ _ _ h1 h2 => Nat.le_trans h2 h1⟩

/-- Python truthiness of the `limit` argument, as tested by `if limit:`
in `Database.get_posts`: `None` and `0` are falsy. -/
def optTruthy : Option Nat → Bool
  | none => false
  | some n => n != 0

/-- `Database.get_posts(limit=None)`:
`SELECT * FROM posts ORDER BY id DESC` with `LIMIT ?` appended only when
`limit` is truthy. -/
def get_posts (st : DBState) (limit : Option Nat) : List Post :=
  let sorted := st.posts.insertionSort postGe
  if optTruthy limit then sorted.take (limit.getD 0) else sorted

/-- `Database.add_post(title, content)`:
inserts `(escape(title), bleach.clean(content, ...), datetime.now().isoformat())`
and returns the cursor's `lastrowid`.  SQLite assigns the fresh
`INTEGER PRIMARY KEY` as one more than the largest existing id.  The current
time is passed in as `now`. -/
def add_post (st : DBState) (title content now : String) : DBState × Nat :=
  let nid := maxId st.posts + 1
  (⟨st.posts ++ [⟨nid, escapeStr title, bleachClean content, now⟩], st.images⟩, nid)

/-- `Database.get_post_by_id(post_id)`:
`SELECT * FROM posts WHERE id = ?` followed by `fetchone()` — the first
matching row, or `None`. -/
def get_post_by_id (st : DBState) (post_id : Nat) : Option Post :=
  st.posts.find? (fun p => p.id == post_id)

/-- `Database.add_image(post_id, filename)`:
`INSERT INTO images (post_id, filename) VALUES (?, ?)`.  No existence check
on `post_id` is performed, and the declared foreign key is not enforced
because the connection never runs `PRAGMA foreign_keys=ON`. -/
def add_image (st : DBState) (post_id : Nat) (filename : String) : DBState :=
  ⟨st.posts, st.images ++ [⟨maxImageId st.images + 1, post_id, filename⟩]⟩

/-- `Database.get_images_by_post(post_id)`:
`SELECT filename FROM images WHERE post_id = ?`. -/
def get_images_by_post (st : DBState) (post_id : Nat) : List String :=
  (st.images.filter (fun i => i.post_id == post_id)).map Image.filename

/-- `Database.update_post(post_id, title, content)`:
`UPDATE posts SET title = ?, content = ? WHERE id = ?` with the same
escaping and sanitization as `add_post`; `created_at` is not in the SET
list, so it is untouched, and a missing id simply matches no row.
`updRow` is the effect of that statement on one row. -/
def updRow (post_id : Nat) (title content : String) (p : Post) : Post :=
  if p.id = post_id then ⟨p.id, escapeStr title, bleachClean content, p.created_at⟩
  else p

/-- `Database.update_post` as a state transformer: the row function
`updRow` applied to every row of `posts`. -/
def update_post (st : DBState) (post_id : Nat) (title content : String) : DBState :=
  ⟨st.posts.map (updRow post_id title content), st.images⟩

/-- `Database.delete_post(post_id)`:
`DELETE FROM posts WHERE id = ?`.  Associated image rows are not touched. -/
def delete_post (st : DBState) (post_id : Nat) : DBState :=
  ⟨st.posts.filter (fun p => p.id != post_id), st.images⟩

/-- An HTTP response of the `save_post` route: either a 400 client error
with a message body, or a redirect. -/
inductive Resp where
  | clientError (msg : String)
  | redirect (loc : String)
deriving DecidableEq, Repr

/-- The `/save` route handler `save_post()`:
strips both form fields, rejects empty or oversize values with status 400,
and otherwise updates (when `post_id` is a truthy string other than
`'None'`) or inserts.  The update branch passes the raw form string to the
SQL `WHERE id = ?`; by SQLite's comparison affinity a numeric string equals
the integer id it denotes and a non-numeric string matches no row, which
`String.toNat?` models. -/
def save_post (st : DBState) (post_id : Option String) (rawTitle rawContent now : String) :
    DBState × Resp :=
  if pyStrip rawTitle = "" ∨ pyStrip rawContent = "" then
    (st, Resp.clientError "标题和内容不能为空")
  else if 100 < (pyStrip rawTitle).length then (st, Resp.clientError "标题过长")
  else if 50000 < (pyStrip rawContent).length then (st, Resp.clientError "内容过长")
  else
    match post_id with
    | some pid =>
      if pid ≠ "" ∧ pid ≠ "None" then
        match pid.toNat? with
        | some n => (update_post st n (pyStrip rawTitle) (pyStrip rawContent), Resp.redirect "/")
        | none => (st, Resp.redirect "/")
      else ((add_post st (pyStrip rawTitle) (pyStrip rawContent) now).1, Resp.redirect "/")
    | none => ((add_post st (pyStrip rawTitle) (pyStrip rawContent) now).1, Resp.redirect "/")

/-- One `<item>` element of the RSS document. -/
structure RssItem where
  title : String
  description : String
  pubDate : String
  guid : String
  link : String
deriving DecidableEq, Repr

/-- The RSS document produced by the `/rss` route: channel metadata plus
one item per post. -/
structure RssDoc where
  channelTitle : String
  channelLink : String
  channelDescription : String
  lastBuildDate : String
  items : List RssItem
deriving DecidableEq, Repr

/-- How `rss_feed` fills one `<item>`: title, content as description,
`created_at` as publication date, and guid and link both equal to
`url_root + "post/" + id`. -/
def postToItem (url_root : String) (p : Post) : RssItem :=
  ⟨p.title, p.content, p.created_at,
   url_root ++ "post/" ++ toString p.id, url_root ++ "post/" ++ toString p.id⟩

/-- The `/rss` route handler `rss_feed()`: reads `db.get_posts(20)` and
emits channel metadata and one item per returned post, in order. -/
def rss_feed (st : DBState) (url_root now : String) : RssDoc :=
  ⟨"我的推文", url_root, "我的最新推文更新", now,
   (get_posts st (some 20)).map (postToItem url_root)⟩

/-- A two-post example state used by the concrete witnesses. -/
def exState : DBState := ⟨[⟨1, "t1", "c1", "d1"⟩, ⟨2, "t2", "c2", "d2"⟩], []⟩

/-- A 25-post example state used by the RSS witness. -/
def state25 : DBState := ⟨(List.range 25).map (fun i => ⟨i + 1, "t", "c", "d"⟩), []⟩

/-- A raw form title of 101 characters whose stripped form has 100. -/
def longTitle : String := ⟨List.replicate 100 'a' ++ [' ']⟩

/-- A title of 100 ampersands: within the length limit, but escaping
expands every character fivefold. -/
def amp100 : String := ⟨List.replicate 100 '&'⟩

theorem mem_id_le_maxId : ∀ {l : List Post} {p : Post}, p ∈ l → p.id ≤ maxId l := by
  intro l
  induction l with
  | nil => intro p h; cases h
  | cons q l ih =>
    intro p h
    cases h with
    | head => exact Nat.le_max_left _ _
    | tail _ h' => exact Nat.le_trans (ih h') (Nat.le_max_right _ _)

/-- The post stored by `add_post` is retrieved unchanged by
`get_post_by_id` at the returned id. -/
theorem getById_add_post (st : DBState) (t c now : String) :
    get_post_by_id (add_post st t c now).1 (add_post st t c now).2 =
      some ⟨maxId st.posts + 1, escapeStr t, bleachClean c, now⟩ := by
  unfold get_post_by_id add_post
  rw [List.find?_append]
  have h : st.posts.find? (fun p => p.id == maxId st.posts + 1) = none := by
    rw [List.find?_eq_none]
    intro x hx
    have := mem_id_le_maxId hx
    simp only [beq_iff_eq]
    omega
  rw [h]
  simp [List.find?]

/-- Filtering away only elements that fail the search predicate does not
change the result of `find?`. -/
theorem find?_filter_eq {α : Type} (l : List α) (q pj : α → Bool)
    (h : ∀ a, pj a = true → q a = true) :
    (l.filter q).find? pj = l.find? pj := by
  induction l with
  | nil => rfl
  | cons a l ih =>
    by_cases hq : q a = true
    · rw [List.filter_cons_of_pos hq]
      by_cases hp : pj a = true
      · rw [List.find?_cons_of_pos _ hp, List.find?_cons_of_pos _ hp]
      · rw [List.find?_cons_of_neg _ (by simpa using hp),
          List.find?_cons_of_neg _ (by simpa using hp), ih]
    · have hp : pj a = false := by
        cases hpa : pj a
        · rfl
        · exact absurd (h a hpa) hq
      rw [List.filter_cons_of_neg (by simpa using hq),
        List.find?_cons_of_neg _ (by simp [hp]), ih]

/-- `find?` commutes with mapping a function that does not change the
search predicate. -/
theorem find?_map_pred {α : Type} (l : List α) (f : α → α) (p : α → Bool)
    (h : ∀ a, p (f a) = p a) :
    (l.map f).find? p = (l.find? p).map f := by
  induction l with
  | nil => rfl
  | cons a l ih =>
    by_cases hp : p a = true
    · rw [List.map_cons, List.find?_cons_of_pos _ (by rw [h]; exact hp),
        List.find?_cons_of_pos _ hp]
      rfl
    · rw [List.map_cons, List.find?_cons_of_neg _ (by simp [h, hp]),
        List.find?_cons_of_neg _ (by simpa using hp), ih]

/-- `updRow` never changes a row's id. -/
theorem updRow_id (post_id : Nat) (title content : String) (p : Post) :
    (updRow post_id title content p).id = p.id := by
  unfold updRow; split <;> rfl

/-- `updRow` never changes a row's creation timestamp. -/
theorem updRow_created_at (post_id : Nat) (title content : String) (p : Post) :
    (updRow post_id title content p).created_at = p.created_at := by
  unfold updRow; split <;> rfl

/-- With distinct post ids, the `ORDER BY id DESC` result is strictly
descending row by row. -/
theorem sorted_ids_strict (st : DBState) (hnd : (st.posts.map Post.id).Nodup) :
    List.Pairwise (fun a b : Post => b.id < a.id) (st.posts.insertionSort postGe) := by
  have hs : List.Pairwise postGe (st.posts.insertionSort postGe) :=
    List.sorted_insertionSort postGe st.posts
  have hperm := List.perm_insertionSort postGe st.posts
  have hnd' : ((st.posts.insertionSort postGe).map Post.id).Nodup :=
    ((hperm.map Post.id).nodup_iff).mpr hnd
  have hne : List.Pairwise (fun a b : Post => a.id ≠ b.id)
      (st.posts.insertionSort postGe) := List.pairwise_map.mp hnd'
  exact (hs.and hne).imp (fun hab =>
    Nat.lt_of_le_of_ne hab.1 (fun e => hab.2 e.symm))

/-- One escaped character occupies at most five characters. -/
theorem escC_length_le (c : Char) : (escC c).length ≤ 5 := by
  unfold escC
  split_ifs <;> simp

/-- Escaping expands a character list at most fivefold. -/
theorem escList_length_le (l : List Char) : (escList l).length ≤ 5 * l.length := by
  induction l with
  | nil => simp [escList]
  | cons c l ih =>
    have := escC_length_le c
    simp only [escList, List.length_append, List.length_cons]
    omega

/-- C1: for every (title, content) pair the save endpoint accepts
(non-empty after stripping, title at most 100 characters, content at most
50000 characters), `add_post` followed by `get_post_by_id` at the returned
id yields a post whose title is the escaped title and whose content is the
sanitized content. -/
theorem C1_create_then_get (st : DBState) (title content now : String)
    (_ht : pyStrip title ≠ "") (_hc : pyStrip content ≠ "")
    (_hlt : title.length ≤ 100) (_hlc : content.length ≤ 50000) :
    get_post_by_id (add_post st title content now).1 (add_post st title content now).2 =
      some ⟨(add_post st title content now).2, escapeStr title, bleachClean content, now⟩ :=
  getById_add_post st title content now

/-- Witness for C1 at the spec's own scenario inputs. -/
theorem C1_witness :
    pyStrip "Hello" ≠ "" ∧ pyStrip "<p>World</p>" ≠ "" ∧
    "Hello".length ≤ 100 ∧ "<p>World</p>".length ≤ 50000 ∧
    get_post_by_id (add_post emptyState "Hello" "<p>World</p>" "2024-01-01").1
        (add_post emptyState "Hello" "<p>World</p>" "2024-01-01").2 =
      some ⟨(add_post emptyState "Hello" "<p>World</p>" "2024-01-01").2,
        escapeStr "Hello", bleachClean "<p>World</p>", "2024-01-01"⟩ :=
  ⟨by decide, by decide, by decide, by decide,
    C1_create_then_get emptyState "Hello" "<p>World</p>" "2024-01-01"
      (by decide) (by decide) (by decide) (by decide)⟩

/-- C3: deleting an id makes `get_post_by_id` of that id return nothing;
all other ids read the same as before; and deleting a missing id leaves
the whole state unchanged without error. -/
theorem C3_delete_then_get (st : DBState) (post_id : Nat) :
    get_post_by_id (delete_post st post_id) post_id = none ∧
    (∀ j, j ≠ post_id →
      get_post_by_id (delete_post st post_id) j = get_post_by_id st j) ∧
    (get_post_by_id st post_id = none → delete_post st post_id = st) := by
  refine ⟨?_, ?_, ?_⟩
  · rw [get_post_by_id, List.find?_eq_none]
    intro x hx
    have := (List.mem_filter.mp hx).2
    simp only [bne_iff_ne, ne_eq] at this
    simp [this]
  · intro j hj
    unfold get_post_by_id delete_post
    exact find?_filter_eq st.posts _ _ (fun a ha => by
      simp only [beq_iff_eq] at ha
      simp only [bne_iff_ne, ne_eq, ha]
      exact hj)
  · intro h
    have hall : ∀ a ∈ st.posts, (a.id != post_id) = true := by
      intro a ha
      have := List.find?_eq_none.mp h a ha
      simpa [bne_iff_ne] using this
    unfold delete_post
    rw [List.filter_eq_self.mpr hall]

/-- Witness for C3: a concrete delete, a read of a surviving row, and a
delete of a missing id. -/
theorem C3_witness :
    get_post_by_id (delete_post exState 1) 1 = none ∧
    (2 ≠ 1) ∧
    get_post_by_id (delete_post exState 1) 2 = get_post_by_id exState 2 ∧
    get_post_by_id exState 9 = none ∧
    delete_post exState 9 = exState :=
  ⟨(C3_delete_then_get exState 1).1, by decide,
    (C3_delete_then_get exState 1).2.1 2 (by decide), by rfl,
    (C3_delete_then_get exState 9).2.2 (by rfl)⟩

/-- C4: `update_post` keeps the matched row's `created_at`, leaves every
row with a different id exactly as it was, and is a silent no-op when no
row has the given id. -/
theorem C4_update_frame (st : DBState) (post_id : Nat) (title content : String) :
    (get_post_by_id (update_post st post_id title content) post_id).map Post.created_at
        = (get_post_by_id st post_id).map Post.created_at ∧
    (∀ j, j ≠ post_id →
      get_post_by_id (update_post st post_id title content) j = get_post_by_id st j) ∧
    (get_post_by_id st post_id = none → update_post st post_id title content = st) := by
  have hpred : ∀ (j : Nat) (a : Post),
      ((updRow post_id title content a).id == j) = (a.id == j) := by
    intro j a; rw [updRow_id]
  refine ⟨?_, ?_, ?_⟩
  · unfold get_post_by_id update_post
    rw [find?_map_pred st.posts _ _ (hpred post_id)]
    cases st.posts.find? (fun p => p.id == post_id) with
    | none => rfl
    | some q =>
      show some (updRow post_id title content q).created_at = some q.created_at
      rw [updRow_created_at]
  · intro j hj
    unfold get_post_by_id update_post
    rw [find?_map_pred st.posts _ _ (hpred j)]
    cases hq : st.posts.find? (fun p => p.id == j) with
    | none => rfl
    | some q =>
      have := List.find?_some hq
      simp only [beq_iff_eq] at this
      show some (updRow post_id title content q) = some q
      rw [updRow, if_neg (by rw [this]; exact hj)]
  · intro h
    have hall : ∀ a ∈ st.posts, updRow post_id title content a = a := by
      intro a ha
      have := List.find?_eq_none.mp h a ha
      simp only [beq_iff_eq] at this
      rw [updRow, if_neg this]
    unfold update_post
    rw [List.map_congr_left hall, List.map_id']

/-- Witness for C4: a concrete update preserving `created_at`, a read of an
untouched row, and an update of a missing id. -/
theorem C4_witness :
    (get_post_by_id (update_post exState 1 "T" "C") 1).map Post.created_at
        = (get_post_by_id exState 1).map Post.created_at ∧
    (2 ≠ 1) ∧
    get_post_by_id (update_post exState 1 "T" "C") 2 = get_post_by_id exState 2 ∧
    get_post_by_id exState 9 = none ∧
    update_post exState 9 "T" "C" = exState :=
  ⟨(C4_update_frame exState 1 "T" "C").1, by decide,
    (C4_update_frame exState 1 "T" "C").2.1 2 (by decide), by rfl,
    (C4_update_frame exState 9 "T" "C").2.2 (by rfl)⟩

/-- C2: with distinct stored ids, `get_posts` without a limit lists every
post in strictly descending id order, and `get_posts n` (positive `n`)
returns at most `n` posts forming an initial segment of the full list. -/
theorem C2_list_recent (st : DBState) (hnd : (st.posts.map Post.id).Nodup)
    (n : Nat) (hn : 0 < n) :
    List.Sorted (fun a b : Nat => b < a) ((get_posts st none).map Post.id) ∧
    (get_posts st none).Perm st.posts ∧
    (get_posts st (some n)).length ≤ n ∧
    ∃ rest, get_posts st none = get_posts st (some n) ++ rest := by
  have hsorted : get_posts st none = st.posts.insertionSort postGe := rfl
  have ht : optTruthy (some n) = true := by
    show (n != 0) = true
    simp only [bne_iff_ne, ne_eq]
    omega
  have hsome : get_posts st (some n) = (st.posts.insertionSort postGe).take n := by
    simp [get_posts, ht]
  refine ⟨?_, ?_, ?_, ?_⟩
  · rw [hsorted]
    exact List.pairwise_map.mpr (sorted_ids_strict st hnd)
  · rw [hsorted]
    exact List.perm_insertionSort postGe st.posts
  · rw [hsome]
    exact List.length_take_le n _
  · exact ⟨(st.posts.insertionSort postGe).drop n,
      by rw [hsorted, hsome, List.take_append_drop]⟩

/-- Witness for C2 on a concrete two-post state with limit 1. -/
theorem C2_witness :
    (exState.posts.map Post.id).Nodup ∧ 0 < 1 ∧
    List.Sorted (fun a b : Nat => b < a) ((get_posts exState none).map Post.id) ∧
    (get_posts exState none).Perm exState.posts ∧
    (get_posts exState (some 1)).length ≤ 1 ∧
    ∃ rest, get_posts exState none = get_posts exState (some 1) ++ rest :=
  ⟨by decide, by decide,
    (C2_list_recent exState (by decide) 1 (by decide)).1,
    (C2_list_recent exState (by decide) 1 (by decide)).2.1,
    (C2_list_recent exState (by decide) 1 (by decide)).2.2.1,
    (C2_list_recent exState (by decide) 1 (by decide)).2.2.2⟩

/-- C10: `get_posts` with limit 0 behaves exactly like `get_posts` with no
limit — `if limit:` treats 0 as absent — so it returns all stored posts,
not the empty list. -/
theorem C10_limit_zero (st : DBState) :
    get_posts st (some 0) = get_posts st none ∧
    (get_posts st (some 0)).Perm st.posts ∧
    (st.posts ≠ [] → get_posts st (some 0) ≠ []) := by
  refine ⟨rfl, List.perm_insertionSort postGe st.posts, ?_⟩
  intro hne hnil
  have hlen := (List.perm_insertionSort postGe st.posts).length_eq
  rw [show get_posts st (some 0) = st.posts.insertionSort postGe from rfl] at hnil
  rw [hnil] at hlen
  exact hne (List.length_eq_zero.mp hlen.symm)

/-- Witness for C10 on a concrete two-post state. -/
theorem C10_witness :
    get_posts exState (some 0) = get_posts exState none ∧
    exState.posts ≠ [] ∧ get_posts exState (some 0) ≠ [] :=
  ⟨(C10_limit_zero exState).1, by decide, (C10_limit_zero exState).2.2 (by decide)⟩

/-- C8: on a 25-post store with distinct ids, the RSS feed reads the 20
most recent posts (`get_posts` with limit 20, an initial segment of the
full descending list), emits exactly 20 items newest first, and each item
carries the post's title, content as description, `created_at` as
publication date, and guid and link derived from the post id. -/
theorem C8_rss_twenty (st : DBState) (url_root now : String)
    (hlen : st.posts.length = 25) (hnd : (st.posts.map Post.id).Nodup) :
    (rss_feed st url_root now).items.length = 20 ∧
    List.Sorted (fun a b : Nat => b < a) ((get_posts st (some 20)).map Post.id) ∧
    get_posts st (some 20) = (get_posts st none).take 20 ∧
    (rss_feed st url_root now).items = (get_posts st (some 20)).map (postToItem url_root) := by
  have hsome : get_posts st (some 20) = (st.posts.insertionSort postGe).take 20 := rfl
  refine ⟨?_, ?_, rfl, rfl⟩
  · show ((get_posts st (some 20)).map (postToItem url_root)).length = 20
    rw [List.length_map, hsome, List.length_take,
      (List.perm_insertionSort postGe st.posts).length_eq, hlen]
    rfl
  · rw [hsome]
    exact List.pairwise_map.mpr
      ((sorted_ids_strict st hnd).sublist (List.take_sublist 20 _))

/-- Witness for C8 on a concrete 25-post state. -/
theorem C8_witness :
    state25.posts.length = 25 ∧ (state25.posts.map Post.id).Nodup ∧
    (rss_feed state25 "http://localhost:5000/" "now").items.length = 20 :=
  ⟨by decide, by decide,
    (C8_rss_twenty state25 "http://localhost:5000/" "now" (by decide) (by decide)).1⟩

set_option maxRecDepth 4000 in
/-- C6 counterexample: a raw title of 101 characters whose stripped form
has 100 characters is accepted by the save endpoint — the length check
runs on the stripped title — so the response is a redirect and a row is
inserted, contradicting the claim read on the raw title. -/
theorem C6_counterexample :
    100 < longTitle.length ∧
    (save_post emptyState none longTitle "x" "d").2 = Resp.redirect "/" ∧
    (save_post emptyState none longTitle "x" "d").1.posts.length = 1 :=
  ⟨by decide, by decide, by decide⟩

/-- C6 (amended): when the stripped title or stripped content is empty,
or the stripped title exceeds 100 characters, or the stripped content
exceeds 50000 characters, `save_post` responds with a client error and
leaves the state untouched. -/
theorem C6_save_rejects (st : DBState) (pid : Option String) (t c now : String)
    (h : pyStrip t = "" ∨ pyStrip c = "" ∨ 100 < (pyStrip t).length ∨
      50000 < (pyStrip c).length) :
    (save_post st pid t c now).1 = st ∧
    ∃ m, (save_post st pid t c now).2 = Resp.clientError m := by
  unfold save_post
  split_ifs with h1 h2 h3
  · exact ⟨rfl, _, rfl⟩
  · exact ⟨rfl, _, rfl⟩
  · exact ⟨rfl, _, rfl⟩
  · exfalso
    rcases h with h | h | h | h
    · exact h1 (Or.inl h)
    · exact h1 (Or.inr h)
    · exact h2 h
    · exact h3 h

/-- Witness for the amended C6: an empty title is rejected and the state
is unchanged. -/
theorem C6_witness :
    (pyStrip "" = "" ∨ pyStrip "x" = "" ∨ 100 < (pyStrip "").length ∨
      50000 < (pyStrip "x").length) ∧
    (save_post exState none "" "x" "d").1 = exState ∧
    ∃ m, (save_post exState none "" "x" "d").2 = Resp.clientError m :=
  ⟨Or.inl rfl, (C6_save_rejects exState none "" "x" "d" (Or.inl rfl)).1,
    (C6_save_rejects exState none "" "x" "d" (Or.inl rfl)).2⟩

set_option maxRecDepth 4000 in
/-- C7 counterexample: a title of 100 ampersands passes the 100-character
check, but the stored escaped title has 500 characters, so the stored
value does not respect the 100-character bound. -/
theorem C7_counterexample :
    amp100.length ≤ 100 ∧
    (get_post_by_id (add_post emptyState amp100 "c" "d").1
        (add_post emptyState amp100 "c" "d").2).map (fun p => p.title.length)
      = some 500 ∧
    ¬(escapeStr amp100).length ≤ 100 :=
  ⟨by decide, by decide, by decide⟩

/-- C7 (amended): escaping expands each character to at most five, so a
title accepted by the 100-character check is stored with at most 500
characters. -/
theorem C7_escaped_title_bound (st : DBState) (title content now : String) (p : Post)
    (hlen : title.length ≤ 100)
    (hp : get_post_by_id (add_post st title content now).1
        (add_post st title content now).2 = some p) :
    p.title.length ≤ 500 := by
  rw [getById_add_post] at hp
  cases hp
  show (escapeStr title).length ≤ 500
  have h1 : (escapeStr title).length = (escList title.data).length := rfl
  have h2 : title.length = title.data.length := rfl
  have h3 := escList_length_le title.data
  omega

/-- Witness for the amended C7 at the 100-ampersand title. -/
theorem C7_witness :
    amp100.length ≤ 100 ∧
    (⟨maxId emptyState.posts + 1, escapeStr amp100, bleachClean "c", "d"⟩
      : Post).title.length ≤ 500 :=
  ⟨by decide, C7_escaped_title_bound emptyState amp100 "c" "d" _ (by decide)
    (getById_add_post emptyState amp100 "c" "d")⟩

/-- C9: the claim that every image row references an existing post at its
creation fails on the code — `add_image` performs no existence check and
the declared foreign key is never enabled (`PRAGMA foreign_keys` stays
off), so adding an image for post 999 to an empty database succeeds while
no post 999 exists. -/
theorem C9_no_fk_enforcement :
    (add_image emptyState 999 "img.png").images = [⟨1, 999, "img.png"⟩] ∧
    (add_image emptyState 999 "img.png").posts = [] ∧
    get_post_by_id (add_image emptyState 999 "img.png") 999 = none ∧
    get_images_by_post (add_image emptyState 999 "img.png") 999 = ["img.png"] :=
  ⟨rfl, rfl, rfl, rfl⟩
